import Mathlib

/-!
Verification development for the estafette-letsencrypt-certificate
controller.  The Go source is shallowly embedded: pure helpers become Lean
functions, and the effectful reconciliation functions are modelled as
functions of an explicit environment that supplies the outcome of every
external call (Kubernetes API, ACME client, Cloudflare API), returning the
status, error and the ordered trace of externally visible actions.
Machine integers of the Go code are modelled as Nat/Int; Go strings as
Lean strings (lengths taken in UTF-8 bytes, as Go's len does).
-/

set_option maxRecDepth 40000

namespace LetsEncrypt

/-! ## Basic helpers shared by the embedding -/

/-- Byte length of a string, matching Go's len(s) on a (UTF-8) string. -/
def utf8Len (s : String) : Nat := (s.data.map Char.utf8Size).sum

/-- Auxiliary list-of-chars splitter underlying goSplit. -/
def splitOnCharAux (sep : Char) : List Char → List Char → List (List Char)
  | [], acc => [acc.reverse]
  | c :: cs, acc =>
    if c = sep then acc.reverse :: splitOnCharAux sep cs []
    else splitOnCharAux sep cs (c :: acc)

/-- Go's strings.Split for a one-character separator (the source only ever
splits on "." and ","): strings.Split("", sep) = [""] and every separator
occurrence produces one more field. -/
def goSplit (sep : Char) (s : String) : List String :=
  (splitOnCharAux sep s.data []).map List.asString

/-- Go's strings.Join with separator ".". -/
def joinDots : List String → String
  | [] => ""
  | [p] => p
  | p :: rest => p ++ "." ++ joinDots rest

/-- First-match lookup in an association list; models reading a Go map key. -/
def lookupA {α : Type} : List (String × α) → String → Option α
  | [], _ => none
  | (k', v) :: rest, k => if k' = k then some v else lookupA rest k

/-- Insert-or-replace in an association list; models writing a Go map key. -/
def setA {α : Type} : List (String × α) → String → α → List (String × α)
  | [], k, v => [(k, v)]
  | (k', v') :: rest, k, v =>
    if k' = k then (k, v) :: rest else (k', v') :: setA rest k v

/-! ## Hostname validator (main.go, validateHostname) -/

/-- regexp.MatchString("[^a-zA-Z0-9-]", label): some character of the label
is outside [A-Za-z0-9-]. -/
def labelHasInvalidChars (label : String) : Bool :=
  label.data.any (fun c => !(c.isAlphanum || c == '-'))

/-- The per-label loop of validateHostname: the character-class check is
skipped for an exact "*" label at index 0; every label must be at most 63
bytes. -/
def validateLabels : Nat → List String → Bool
  | _, [] => true
  | index, label :: rest =>
    if (index != 0 || label != "*") && labelHasInvalidChars label then false
    else if 63 < utf8Len label then false
    else validateLabels (index + 1) rest

/-- main.go validateHostname: at most 253 bytes, at least 2 dot-separated
labels, then the per-label loop. -/
def validateHostname (hostname : String) : Bool :=
  if 253 < utf8Len hostname then false
  else
    let dnsNameParts := goSplit '.' hostname
    if dnsNameParts.length < 2 then false
    else validateLabels 0 dnsNameParts

/-- Every character of the label is in [A-Za-z0-9-]. -/
def labelCharsOK (label : String) : Bool :=
  label.data.all (fun c => c.isAlphanum || c == '-')

/-- The specification's wording of hostname validity: total length at most
253 bytes, at least two labels, every label at most 63 bytes, and every
label other than a leading "*" made of characters in [A-Za-z0-9-]. -/
def specValidHostname (hostname : String) : Bool :=
  let parts := goSplit '.' hostname
  decide (utf8Len hostname ≤ 253) && decide (2 ≤ parts.length) &&
  parts.all (fun l => decide (utf8Len l ≤ 63)) &&
  (match parts with
   | [] => true
   | first :: rest => (first == "*" || labelCharsOK first) && rest.all labelCharsOK)

/-! ## State codec (main.go, annotations and LetsEncryptCertificateState) -/

def annotationLetsEncryptCertificate : String := "estafette.io/letsencrypt-certificate"

def annotationLetsEncryptCertificateHostnames : String :=
  "estafette.io/letsencrypt-certificate-hostnames"

def annotationLetsEncryptCertificateCopyToAllNamespaces : String :=
  "estafette.io/letsencrypt-certificate-copy-to-all-namespaces"

def annotationLetsEncryptCertificateLinkedSecret : String :=
  "estafette.io/letsencrypt-certificate-linked-secret"

def annotationLetsEncryptCertificateUploadToCloudflare : String :=
  "estafette.io/letsencrypt-certificate-upload-to-cloudflare"

def annotationLetsEncryptCertificateState : String :=
  "estafette.io/letsencrypt-certificate-state"

/-- The state of the secret with respect to Let's Encrypt certificates. -/
structure LetsEncryptCertificateState where
  Enabled : String
  Hostnames : String
  CopyToAllNamespaces : Bool
  UploadToCloudflare : Bool
  LastRenewed : String
  LastAttempt : String
deriving DecidableEq

/-- Go zero value of LetsEncryptCertificateState. -/
def zeroState : LetsEncryptCertificateState :=
  { Enabled := "", Hostnames := "", CopyToAllNamespaces := false,
    UploadToCloudflare := false, LastRenewed := "", LastAttempt := "" }

/-- A v1.Secret restricted to the fields the controller reads or writes.
Annotations, labels and data are modelled as association lists. -/
structure Secret where
  name : String
  nsName : String
  labels : List (String × String)
  annotations : List (String × String)
  data : List (String × List Nat)
deriving DecidableEq

/-- Go's strconv.ParseBool. -/
def parseGoBool (s : String) : Option Bool :=
  if s = "1" ∨ s = "t" ∨ s = "T" ∨ s = "TRUE" ∨ s = "true" ∨ s = "True" then some true
  else if s = "0" ∨ s = "f" ∨ s = "F" ∨ s = "FALSE" ∨ s = "false" ∨ s = "False" then
    some false
  else none

/-- main.go getDesiredSecretState: annotations or defaults; an unparsable
boolean annotation leaves the field at its zero value false. -/
def getDesiredSecretState (secret : Secret) : LetsEncryptCertificateState :=
  let enabled := match lookupA secret.annotations annotationLetsEncryptCertificate with
    | some v => v
    | none => "false"
  let hostnames :=
    match lookupA secret.annotations annotationLetsEncryptCertificateHostnames with
    | some v => v
    | none => ""
  let copyToAll :=
    match lookupA secret.annotations annotationLetsEncryptCertificateCopyToAllNamespaces with
    | some v =>
      match parseGoBool v with
      | some b => b
      | none => false
    | none => false
  let upload :=
    match lookupA secret.annotations annotationLetsEncryptCertificateUploadToCloudflare with
    | some v =>
      match parseGoBool v with
      | some b => b
      | none => false
    | none => false
  { Enabled := enabled, Hostnames := hostnames, CopyToAllNamespaces := copyToAll,
    UploadToCloudflare := upload, LastRenewed := "", LastAttempt := "" }

/-- main.go getCurrentSecretState: a missing state annotation or a failed
JSON decode (the decoder is supplied as a parameter, none meaning failure)
yields the zero-value state; the function itself never fails. -/
def getCurrentSecretState
    (unmarshalState : String → Option LetsEncryptCertificateState)
    (secret : Secret) : LetsEncryptCertificateState :=
  match lookupA secret.annotations annotationLetsEncryptCertificateState with
  | none => zeroState
  | some stateString =>
    match unmarshalState stateString with
    | none => zeroState
    | some state => state

/-! ## Renewal decision engine (main.go, makeSecretChanges / processSecret)

Time is modelled on an integer axis of seconds whose origin 0 is Go's zero
time.Time; time.Parse is supplied by the environment as a function of type
String -> Option Int, none meaning a parse failure.  The strict float comparisons of the source,
time.Since(t).Minutes() > 15 and time.Since(t).Hours() > 60*24, are exact
on this axis: they hold iff now - t > 900 seconds resp. > 5184000 seconds.
-/

/-- Lines 330-346 of main.go: an empty timestamp string, or one that fails
to parse as RFC3339, is replaced by the zero time. -/
def parseTimeOrZero (parse : String → Option Int) (s : String) : Int :=
  if s = "" then 0
  else
    match parse s with
    | some t => t
    | none => 0

/-- Line 349 of main.go: the renewal condition. -/
def shouldRenew (parse : String → Option Int) (now : Int)
    (desiredState currentState : LetsEncryptCertificateState) : Bool :=
  let lastRenewed := parseTimeOrZero parse currentState.LastRenewed
  let lastAttempt := parseTimeOrZero parse currentState.LastAttempt
  desiredState.Enabled == "true" && decide (0 < utf8Len desiredState.Hostnames) &&
    decide ((15 : Int) * 60 < now - lastAttempt) &&
    (desiredState.Hostnames != currentState.Hostnames ||
      decide ((60 : Int) * 24 * 60 * 60 < now - lastRenewed))

/-- The certificate bundle returned by legoClient.Certificate.Obtain. -/
structure CertBundle where
  Certificate : List Nat
  PrivateKey : List Nat
  IssuerCertificate : Option (List Nat)
  Domain : String
deriving DecidableEq

/-- Errors surfaced by the modelled external calls; invalidHostname is the
only error makeSecretChanges constructs itself. -/
inductive KubeErr where
  | code (n : Nat)
  | invalidHostname (h : String)
deriving DecidableEq

/-- Externally visible actions of a reconciliation, in order. -/
inductive Action where
  | updateSecret (s : Secret)
  | getSecret (ns name : String)
  | createSecret (s : Secret)
  | copyAll (s : Secret)
  | uploadCf (hostnames : String) (cert key : List Nat)
  | postEvent (ns eventType action reason : String)
deriving DecidableEq

/-- Outcomes of the external calls made on the renewal path, plus the clock
and the codecs used by makeSecretChanges.  Each Option KubeErr field is the
error result of the correspondingly named call site in main.go; the
account/key/client/provider loading steps (lines 381-427) abort the attempt
identically, so each has its own field checked in source order. -/
structure RenewEnv where
  now : Int
  parseTime : String → Option Int
  fmtTime : Int → String
  marshalState : LetsEncryptCertificateState → String
  marshalIndentCert : CertBundle → List Nat
  lockUpdateErr : Option KubeErr
  accountReadErr : Option KubeErr
  accountUnmarshalErr : Option KubeErr
  privateKeyErr : Option KubeErr
  legoClientErr : Option KubeErr
  providerErr : Option KubeErr
  obtainErr : Option KubeErr
  obtainCerts : Option CertBundle
  reloadResult : Except KubeErr Secret
  finalUpdateErr : Option KubeErr
  copyErr : Option KubeErr
  uploadErr : Option KubeErr

/-- Status, error and action trace of one makeSecretChanges invocation. -/
structure RenewOutcome where
  status : String
  err : Option KubeErr
  trace : List Action
deriving DecidableEq

/-- The secret as written by the lock-acquire update (lines 354-365):
LastAttempt is set to now and the re-serialized state is stored in the
state annotation. -/
def lockedSecret (env : RenewEnv) (secret : Secret)
    (currentState : LetsEncryptCertificateState) : Secret :=
  { secret with
    annotations := setA secret.annotations annotationLetsEncryptCertificateState
      (env.marshalState { currentState with LastAttempt := env.fmtTime env.now }) }

/-- The secret materializer (lines 489-518 of main.go): writes the bundle
under the ssl.* keys and the mirroring tls.* keys into the data map; the
issuer keys are written only when an issuer certificate was returned. -/
def materializeData (data0 : List (String × List Nat)) (certificates : CertBundle)
    (jsonBytes : List Nat) : List (String × List Nat) :=
  let dataA := setA (setA (setA data0
    "ssl.crt" certificates.Certificate)
    "ssl.key" certificates.PrivateKey)
    "ssl.pem" (certificates.Certificate ++ certificates.PrivateKey)
  let dataB := match certificates.IssuerCertificate with
    | some issuer => setA dataA "ssl.issuer.crt" issuer
    | none => dataA
  let dataC := setA dataB "ssl.json" jsonBytes
  let dataD := setA (setA (setA dataC
    "tls.crt" certificates.Certificate)
    "tls.key" certificates.PrivateKey)
    "tls.pem" (certificates.Certificate ++ certificates.PrivateKey)
  let dataE := match certificates.IssuerCertificate with
    | some issuer => setA dataD "tls.issuer.crt" issuer
    | none => dataD
  setA dataE "tls.json" jsonBytes

/-- The secret as prepared for the final combined state+data update (lines
476-518): the reloaded secret with the new state serialized into the state
annotation and the materialized certificate data. -/
def writtenSecret (env : RenewEnv) (d : LetsEncryptCertificateState)
    (certificates : CertBundle) (reloaded : Secret) : Secret :=
  let newState := { d with LastRenewed := env.fmtTime env.now }
  let withState := { reloaded with
    annotations := setA reloaded.annotations annotationLetsEncryptCertificateState
      (env.marshalState newState) }
  { withState with
    data := materializeData withState.data certificates (env.marshalIndentCert certificates) }

/-- Lines 522-549 of makeSecretChanges: the final update of the written
secret, then while the status is already "succeeded" the optional namespace
replication and Cloudflare upload, whose errors are returned without
changing the status. -/
def afterWrite (env : RenewEnv) (d : LetsEncryptCertificateState)
    (certificates : CertBundle) (written : Secret) (srcNs srcName : String) : RenewOutcome :=
  let trace2 := [Action.getSecret srcNs srcName, Action.updateSecret written]
  match env.finalUpdateErr with
  | some e => ⟨"failed", some e, trace2⟩
  | none =>
  let afterCopy :=
    if d.CopyToAllNamespaces then (trace2 ++ [Action.copyAll written], env.copyErr)
    else (trace2, none)
  match afterCopy.2 with
  | some e => ⟨"succeeded", some e, afterCopy.1⟩
  | none =>
  let afterUpload :=
    if d.UploadToCloudflare then
      (afterCopy.1 ++ [Action.uploadCf d.Hostnames
        certificates.Certificate certificates.PrivateKey], env.uploadErr)
    else (afterCopy.1, none)
  match afterUpload.2 with
  | some e => ⟨"succeeded", some e, afterUpload.1⟩
  | none => ⟨"succeeded", none, afterUpload.1⟩

/-- The renewal attempt body of makeSecretChanges (lines 351-549), entered
when the renewal condition holds; the returned trace excludes the leading
lock-acquire update, which makeSecretChanges prepends. -/
def attemptRenewal (env : RenewEnv) (secret : Secret)
    (desiredState : LetsEncryptCertificateState) : RenewOutcome :=
  match env.lockUpdateErr with
  | some e => ⟨"failed", some e, []⟩
  | none =>
  -- lines 372-379: every hostname must validate; abort on the first failure
  match (goSplit ',' desiredState.Hostnames).find? (fun h => !validateHostname h) with
  | some h => ⟨"failed", some (KubeErr.invalidHostname h), []⟩
  | none =>
  -- lines 381-394: read and unmarshal /account/account.json
  match env.accountReadErr with
  | some e => ⟨"failed", some e, []⟩
  | none =>
  match env.accountUnmarshalErr with
  | some e => ⟨"failed", some e, []⟩
  | none =>
  -- lines 396-403: load /account/account.key
  match env.privateKeyErr with
  | some e => ⟨"failed", some e, []⟩
  | none =>
  -- lines 405-414: lego.NewClient
  match env.legoClientErr with
  | some e => ⟨"failed", some e, []⟩
  | none =>
  -- lines 417-427: cloudflare.NewDNSProviderConfig
  match env.providerErr with
  | some e => ⟨"failed", some e, []⟩
  | none =>
  -- lines 442-457: Obtain; a nil certificate with a nil error still fails,
  -- returning the nil error
  match env.obtainErr with
  | some e => ⟨"failed", some e, []⟩
  | none =>
  match env.obtainCerts with
  | none => ⟨"failed", none, []⟩
  | some certificates =>
  -- lines 468-473: re-fetch the secret before the final write
  match env.reloadResult with
  | .error e => ⟨"failed", some e, [Action.getSecret secret.nsName secret.name]⟩
  | .ok reloaded =>
  -- lines 476-549: state update, materialization, final write, replication
  -- and upload
  afterWrite env desiredState certificates
    (writtenSecret env desiredState certificates reloaded) secret.nsName secret.name

/-- main.go makeSecretChanges: when the renewal condition of line 349 fails
the function returns "skipped" with no error and no external action;
otherwise it performs the lock-acquire update and runs the attempt body. -/
def makeSecretChanges (env : RenewEnv) (secret : Secret)
    (desiredState currentState : LetsEncryptCertificateState) : RenewOutcome :=
  if shouldRenew env.parseTime env.now desiredState currentState then
    let body := attemptRenewal env secret desiredState
    ⟨body.status, body.err,
      Action.updateSecret (lockedSecret env secret currentState) :: body.trace⟩
  else ⟨"skipped", none, []⟩

/-- Environment of processSecret: the renewal environment plus the status
annotation decoder and the outcomes of the two postEventAboutStatus calls. -/
structure ProcessEnv where
  renewEnv : RenewEnv
  unmarshalState : String → Option LetsEncryptCertificateState
  postFailedErr : Option KubeErr
  postSucceededErr : Option KubeErr

/-- main.go processSecret: derives the desired and current state, runs
makeSecretChanges, and posts a Warning/FailedObtain event when the status
is "failed" or a Normal/SuccessfulObtain event when it is "succeeded"
(returning the event call's error, which replaces the renewal error);
otherwise the result is "skipped" with no error. -/
def processSecret (env : ProcessEnv) (secret : Option Secret) : RenewOutcome :=
  match secret with
  | some s =>
    let desiredState := getDesiredSecretState s
    let currentState := getCurrentSecretState env.unmarshalState s
    let r := makeSecretChanges env.renewEnv s desiredState currentState
    if r.status = "failed" then
      ⟨r.status, env.postFailedErr,
        r.trace ++ [Action.postEvent s.nsName "Warning" "Failed" "FailedObtain"]⟩
    else if r.status = "succeeded" then
      ⟨r.status, env.postSucceededErr,
        r.trace ++ [Action.postEvent s.nsName "Normal" "Succeeded" "SuccessfulObtain"]⟩
    else ⟨"skipped", none, r.trace⟩
  | none => ⟨"skipped", none, []⟩

/-- The payload of the last updateSecret action of a trace, if any: what the
secret's stored content is after the trace, absent a rollback. -/
def lastUpdatePayload : List Action → Option Secret
  | [] => none
  | Action.updateSecret s :: rest => some ((lastUpdatePayload rest).getD s)
  | _ :: rest => lastUpdatePayload rest

/-! ## Namespace replicator (main.go, copySecretToNamespace) -/

/-- A v1.Namespace restricted to the fields read by the replicator. -/
structure K8sNamespace where
  name : String
  phase : String
deriving DecidableEq

/-- Result of the Get call for an existing secret of the same name in the
target namespace. -/
inductive GetSecretOutcome where
  | notFound
  | getErr (e : KubeErr)
  | found (s : Secret)
deriving DecidableEq

/-- Outcomes of the external calls made by copySecretToNamespace. -/
structure CopyEnv where
  getOutcome : GetSecretOutcome
  createErr : Option KubeErr
  updateErr : Option KubeErr

/-- main.go copySecretToNamespace: skip the source namespace and inactive
namespaces; create a fresh copy carrying the data, the labels and exactly
the linked-secret and state annotations when no secret of that name exists,
and otherwise update only the data and the state annotation of the existing
secret.  Reading a missing state annotation yields "" as a Go map read
does. -/
def copySecretToNamespace (env : CopyEnv) (secret : Secret) (ns : K8sNamespace) :
    Option KubeErr × List Action :=
  if ns.name = secret.nsName ∨ ns.phase ≠ "Active" then (none, [])
  else
    match env.getOutcome with
    | GetSecretOutcome.notFound =>
      let secretInNamespace : Secret :=
        { name := secret.name
          nsName := ns.name
          labels := secret.labels
          annotations :=
            [(annotationLetsEncryptCertificateLinkedSecret,
               secret.nsName ++ "/" ++ secret.name),
             (annotationLetsEncryptCertificateState,
               (lookupA secret.annotations annotationLetsEncryptCertificateState).getD "")]
          data := secret.data }
      (env.createErr, [Action.createSecret secretInNamespace])
    | GetSecretOutcome.getErr e => (some e, [])
    | GetSecretOutcome.found existing =>
      let updated := { existing with
        data := secret.data
        annotations := setA existing.annotations annotationLetsEncryptCertificateState
          ((lookupA secret.annotations annotationLetsEncryptCertificateState).getD "") }
      (env.updateErr, [Action.updateSecret updated])

/-! ## Cloudflare client (cloudflare.go / cloudflareTypes.go) -/

/-- A Cloudflare zone restricted to the fields the resolver reads. -/
structure Zone where
  id : String
  name : String
deriving DecidableEq

/-- result_info of a zones list response. -/
structure ZoneResultInfo where
  page : Int
  perPage : Int
  count : Int
  totalCount : Int
deriving DecidableEq

/-- A response to the zones/?name= query, after JSON decoding. -/
structure ZonesResult where
  success : Bool
  zones : List Zone
  resultInfo : ZoneResultInfo
deriving DecidableEq

/-- The distinct error values produced on the Cloudflare paths. -/
inductive CfError where
  | dnsNameTooFewParts
  | listZonesFailed (zoneName : String)
  | sourceNil
  | tooManyItems
  | zonesEmpty
  | noZoneMatchesName
  | noMatchingZoneFound
  | listCertsFailed
  | updateSSLFailed
  | createSSLFailed
  | certDecodeFailed
deriving DecidableEq

/-- cloudflare.go getLastItemsFromSlice: the last numberOfItems elements. -/
def getLastItemsFromSlice (source : List String) (numberOfItems : Nat) :
    Except CfError (List String) :=
  if source.length = 0 then Except.error CfError.sourceNil
  else if source.length < numberOfItems then Except.error CfError.tooManyItems
  else Except.ok (source.drop (source.length - numberOfItems))

/-- cloudflare.go getMatchingZoneFromZones: first zone whose name equals
zoneName exactly; empty input and no match are distinct errors. -/
def getMatchingZoneFromZones (zones : List Zone) (zoneName : String) :
    Except CfError Zone :=
  if zones.length = 0 then Except.error CfError.zonesEmpty
  else
    match zones.find? (fun z => z.name == zoneName) with
    | some z => Except.ok z
    | none => Except.error CfError.noZoneMatchesName

/-- The widening loop of GetZoneByDNSName (lines 81-98).  fuel is
dnsNameParts.length - numberOfZoneItems, so the structural recursion
matches the loop guard numberOfZoneItems < len(dnsNameParts).  The first
component of the result is the list of zone names queried so far, oldest
first. -/
def getZoneLoop (query : String → ZonesResult) (dnsNameParts : List String) :
    Nat → Nat → ZonesResult → List String → List String × Except CfError Zone
  | 0, _, _, trace => (trace, Except.error CfError.noMatchingZoneFound)
  | fuel + 1, numberOfZoneItems, zonesResult, trace =>
    if (zonesResult.resultInfo.totalCount = 0 ∨
          zonesResult.resultInfo.perPage < zonesResult.resultInfo.totalCount) ∧
        numberOfZoneItems < dnsNameParts.length then
      match getLastItemsFromSlice dnsNameParts (numberOfZoneItems + 1) with
      | Except.error e => (trace, Except.error e)
      | Except.ok zoneNameParts =>
        let zoneName := joinDots zoneNameParts
        let zr := query zoneName
        let trace1 := trace ++ [zoneName]
        if zr.success = false then (trace1, Except.error (CfError.listZonesFailed zoneName))
        else if 0 < zr.resultInfo.count ∧ zr.resultInfo.count ≤ zr.resultInfo.perPage then
          (trace1, getMatchingZoneFromZones zr.zones zoneName)
        else getZoneLoop query dnsNameParts fuel (numberOfZoneItems + 1) zr trace1
    else (trace, Except.error CfError.noMatchingZoneFound)

/-- cloudflare.go GetZoneByDNSName, with getZonesByName abstracted as the
query oracle (an unsuccessful response makes getZonesByName fail).  Returns
the list of queried zone names in order together with the result. -/
def GetZoneByDNSName (query : String → ZonesResult) (dnsName : String) :
    List String × Except CfError Zone :=
  let dnsNameParts := goSplit '.' dnsName
  if dnsNameParts.length < 2 then ([], Except.error CfError.dnsNameTooFewParts)
  else
    match getLastItemsFromSlice dnsNameParts 2 with
    | Except.error e => ([], Except.error e)
    | Except.ok zoneNameParts =>
      let zoneName := joinDots zoneNameParts
      let zr := query zoneName
      if zr.success = false then ([zoneName], Except.error (CfError.listZonesFailed zoneName))
      else if 0 < zr.resultInfo.count ∧ zr.resultInfo.count ≤ zr.resultInfo.perPage then
        ([zoneName], getMatchingZoneFromZones zr.zones zoneName)
      else getZoneLoop query dnsNameParts (dnsNameParts.length - 2) 2 zr [zoneName]

/-- A Cloudflare custom certificate record; expires_on is on the same
integer time axis as the rest of the model. -/
structure SSLConfiguration where
  id : String
  hosts : List String
  zoneID : String
  expiresOn : Int
  certificate : String
  privateKey : String
deriving DecidableEq

/-- Go zero value of SSLConfiguration. -/
def zeroSSLConfiguration : SSLConfiguration :=
  { id := "", hosts := [], zoneID := "", expiresOn := 0, certificate := "", privateKey := "" }

/-- A decoded response to the custom_certificates list call. -/
structure CertListResult where
  success : Bool
  sslConfigurations : List SSLConfiguration

/-- A decoded response to a custom_certificates POST or PATCH call. -/
structure SSLConfigResult where
  success : Bool
  sslConfiguration : SSLConfiguration

/-- cloudflareTypes.go CertificateEqual: PEM-decode and parse the raw
certificate (abstracted as parseNotAfter, which yields the parsed NotAfter
time or the decode/parse error) and compare the recorded expiry with
NotAfter; returns the Go (bool, error) pair. -/
def CertificateEqual (parseNotAfter : String → Except CfError Int)
    (sslConfig : SSLConfiguration) (rawCertificate : String) : Bool × Option CfError :=
  match parseNotAfter rawCertificate with
  | Except.error e => (false, some e)
  | Except.ok notAfter => (sslConfig.expiresOn == notAfter, none)

/-- Write calls issued to the Cloudflare custom-certificates API. -/
inductive CfWrite where
  | patchCert (zoneID sslConfigID : String) (cfg : SSLConfiguration)
  | postCert (zoneID : String) (cfg : SSLConfiguration)
deriving DecidableEq

/-- Environment of UpsertSSLConfigurationByDNSName: query oracles for the
zone listing and the per-zone certificate listing, the certificate parser,
and the responses to a PATCH and a POST. -/
structure CfEnv where
  zonesQuery : String → ZonesResult
  listCerts : String → CertListResult
  parseNotAfter : String → Except CfError Int
  patchResult : SSLConfigResult
  createResult : SSLConfigResult

/-- Result of one upsert: write calls issued in order, the returned
configuration r (the Go named return, zero-valued on failure paths) and the
error. -/
structure UpsertOutcome where
  writes : List CfWrite
  r : SSLConfiguration
  err : Option CfError
deriving DecidableEq

/-- cloudflare.go UpsertSSLConfigurationByDNSName: resolve the zone, list
its custom certificates; with at least one existing configuration, return
the first unchanged when CertificateEqual reports it equal (or errors),
else PATCH the first entry's ID; with none, POST a new configuration. -/
def UpsertSSLConfigurationByDNSName (env : CfEnv) (dnsName : String)
    (certificate privateKey : String) : UpsertOutcome :=
  let newSSLConfig :=
    { zeroSSLConfiguration with certificate := certificate, privateKey := privateKey }
  match (GetZoneByDNSName env.zonesQuery dnsName).2 with
  | Except.error e => ⟨[], zeroSSLConfiguration, some e⟩
  | Except.ok zone =>
    let listRes := env.listCerts zone.id
    if listRes.success = false then ⟨[], zeroSSLConfiguration, some CfError.listCertsFailed⟩
    else
      match listRes.sslConfigurations with
      | oldSSLConfig :: _ =>
        let same := CertificateEqual env.parseNotAfter oldSSLConfig certificate
        if same.1 = true ∨ same.2.isSome then ⟨[], oldSSLConfig, same.2⟩
        else
          let patchWrite := CfWrite.patchCert zone.id oldSSLConfig.id newSSLConfig
          if env.patchResult.success = false then
            ⟨[patchWrite], zeroSSLConfiguration, some CfError.updateSSLFailed⟩
          else ⟨[patchWrite], env.patchResult.sslConfiguration, none⟩
      | [] =>
        let postWrite := CfWrite.postCert zone.id newSSLConfig
        if env.createResult.success = false then
          ⟨[postWrite], zeroSSLConfiguration, some CfError.createSSLFailed⟩
        else ⟨[postWrite], env.createResult.sslConfiguration, none⟩

/-! ## Predicates on zone query responses -/

/-- The terminal condition of the resolver: the response's count is
positive and fits the page (lines 75 and 94 of cloudflare.go). -/
def pageFits (zr : ZonesResult) : Prop :=
  0 < zr.resultInfo.count ∧ zr.resultInfo.count ≤ zr.resultInfo.perPage

/-- Page-level consistency of a first-page list response, as the Cloudflare
API guarantees: a non-negative count never exceeding total_count, and equal
to total_count whenever the whole result set fits one page. -/
def pageConsistent (zr : ZonesResult) : Prop :=
  0 ≤ zr.resultInfo.count ∧
  zr.resultInfo.count ≤ zr.resultInfo.totalCount ∧
  (zr.resultInfo.totalCount ≤ zr.resultInfo.perPage →
    zr.resultInfo.count = zr.resultInfo.totalCount)

/-! ## Concrete inputs used by the claim witnesses and counterexamples -/

/-- A 63-byte label of the letter a. -/
def label63 : String := List.asString (List.replicate 63 'a')

/-- A 64-byte label of the letter a. -/
def label64 : String := List.asString (List.replicate 64 'a')

/-- Four 63-byte labels: 255 bytes in total, every label individually
valid. -/
def longHostname : String := label63 ++ "." ++ label63 ++ "." ++ label63 ++ "." ++ label63

/-- A renewal environment whose clock formats to the fixed string "NOW",
which parses back to the clock value 1000. -/
def wEnvC1 : RenewEnv :=
  { now := 1000
    parseTime := fun s => if s = "NOW" then some 1000 else none
    fmtTime := fun _ => "NOW"
    marshalState := fun _ => "ST"
    marshalIndentCert := fun _ => []
    lockUpdateErr := none
    accountReadErr := none
    accountUnmarshalErr := none
    privateKeyErr := none
    legoClientErr := none
    providerErr := none
    obtainErr := none
    obtainCerts := none
    reloadResult := Except.error (KubeErr.code 0)
    finalUpdateErr := none
    copyErr := none
    uploadErr := none }

def wSecretC1 : Secret := ⟨"tls-cert", "default", [], [], []⟩

def wDesiredC1 : LetsEncryptCertificateState :=
  { Enabled := "true", Hostnames := "example.com", CopyToAllNamespaces := false,
    UploadToCloudflare := false, LastRenewed := "", LastAttempt := "" }

/-- Current state whose LastAttempt is exactly the formatted "now" and whose
hostnames differ from the desired ones. -/
def wCurrentC1 : LetsEncryptCertificateState :=
  { Enabled := "true", Hostnames := "other.com", CopyToAllNamespaces := false,
    UploadToCloudflare := false, LastRenewed := "", LastAttempt := "NOW" }

/-- Certificate bundle without an issuer certificate. -/
def cexBundleC2 : CertBundle := ⟨[1, 2], [3, 4], none, "example.com"⟩

def cexSecretC2 : Secret :=
  ⟨"tls-cert", "team-a", [],
   [(annotationLetsEncryptCertificate, "true"),
    (annotationLetsEncryptCertificateHostnames, "example.com"),
    (annotationLetsEncryptCertificateCopyToAllNamespaces, "true")], []⟩

/-- Environment in which everything up to and including the final
certificate write succeeds and the namespace replication then fails. -/
def cexEnvC2 : RenewEnv :=
  { now := 10000000
    parseTime := fun _ => none
    fmtTime := fun _ => "NOW"
    marshalState := fun _ => "ST"
    marshalIndentCert := fun _ => [9]
    lockUpdateErr := none
    accountReadErr := none
    accountUnmarshalErr := none
    privateKeyErr := none
    legoClientErr := none
    providerErr := none
    obtainErr := none
    obtainCerts := some cexBundleC2
    reloadResult := Except.ok cexSecretC2
    finalUpdateErr := none
    copyErr := some (KubeErr.code 7)
    uploadErr := none }

def cexPEnvC2 : ProcessEnv := ⟨cexEnvC2, fun _ => none, none, none⟩

/-- Certificate bundle with an issuer certificate, for the C8 witness. -/
def wBundleC8 : CertBundle := ⟨[1, 2], [3, 4], some [5, 6], "example.com"⟩

/-- A reloaded secret carrying a stale issuer entry in its data. -/
def cexSecretC8 : Secret :=
  ⟨"tls-cert", "team-a", [],
   [(annotationLetsEncryptCertificate, "true"),
    (annotationLetsEncryptCertificateHostnames, "example.com")],
   [("ssl.issuer.crt", [7, 7])]⟩

/-- Environment that succeeds through the final write, obtaining a bundle
with no issuer certificate, while the reloaded secret still carries a stale
ssl.issuer.crt entry. -/
def cexEnvC8 : RenewEnv :=
  { cexEnvC2 with
    obtainCerts := some cexBundleC2
    reloadResult := Except.ok cexSecretC8
    copyErr := none }

/-- Environment for the C8 witness: same shape, issuer present. -/
def wEnvC8 : RenewEnv :=
  { cexEnvC8 with obtainCerts := some wBundleC8 }

/-- Zone query oracle for the C3 witness: the exact-name query for
estafette.io returns a single matching zone on one page. -/
def wZoneC3 : Zone := ⟨"zone-1", "estafette.io"⟩

def wQueryC3 : String → ZonesResult := fun s =>
  if s = "estafette.io" then ⟨true, [wZoneC3], ⟨1, 20, 1, 1⟩⟩
  else ⟨true, [], ⟨1, 20, 0, 0⟩⟩

/-- Zone query oracle for the C4 witness: the 2-label candidate overflows
the page (count 2 over perPage 1 of 3 total), the 3-label candidate is a
single exact match. -/
def wZoneC4 : Zone := ⟨"zone-2", "a.b.c"⟩

def wQueryC4 : String → ZonesResult := fun s =>
  if s = "b.c" then ⟨true, [], ⟨1, 1, 2, 3⟩⟩
  else ⟨true, [wZoneC4], ⟨1, 1, 1, 1⟩⟩

/-- Zone query oracle answering every name with an empty, consistent
response: every candidate of a widening run comes back empty. -/
def wQueryEmpty : String → ZonesResult := fun _ => ⟨true, [], ⟨1, 20, 0, 0⟩⟩

/-- Cloudflare environment for the C6 witness: estafette.io resolves to
wZoneC3, whose certificate list holds exactly one configuration expiring at
time 500; the candidate certificate "CERTPEM" parses to NotAfter 500. -/
def wOldCfgC6 : SSLConfiguration :=
  { id := "cfg-1", hosts := ["estafette.io"], zoneID := "zone-1", expiresOn := 500,
    certificate := "OLD", privateKey := "" }

def wCfEnvC6 : CfEnv :=
  { zonesQuery := wQueryC3
    listCerts := fun z => if z = "zone-1" then ⟨true, [wOldCfgC6]⟩ else ⟨true, []⟩
    parseNotAfter := fun s => if s = "CERTPEM" then Except.ok 500 else Except.ok 600
    patchResult := ⟨true, zeroSSLConfiguration⟩
    createResult := ⟨true, zeroSSLConfiguration⟩ }

/-- Secret with a state annotation that does not decode, for C7's witness. -/
def wSecretC7 : Secret :=
  ⟨"tls-cert", "default", [], [(annotationLetsEncryptCertificateState, "not-json")], []⟩

/-- Source secret and target namespace for the C9 witness. -/
def wSecretC9 : Secret :=
  ⟨"tls-cert", "source-ns", [("team", "a")],
   [(annotationLetsEncryptCertificate, "true"),
    (annotationLetsEncryptCertificateHostnames, "example.com"),
    (annotationLetsEncryptCertificateState, "STATE-JSON")],
   [("ssl.crt", [1, 2])]⟩

def wNamespaceC9 : K8sNamespace := ⟨"target-ns", "Active"⟩

def wCopyEnvC9 : CopyEnv := ⟨GetSecretOutcome.notFound, none, none⟩

/-- Current state with corrupted timestamps, for C10's witness. -/
def wCurrentC10 : LetsEncryptCertificateState :=
  { Enabled := "true", Hostnames := "example.com", CopyToAllNamespaces := false,
    UploadToCloudflare := false, LastRenewed := "garbage-renewed",
    LastAttempt := "garbage-attempt" }

/-- Environment whose time parser rejects every string. -/
def wEnvC10 : RenewEnv := { cexEnvC2 with parseTime := fun _ => none }

/-! ## Helper lemmas -/

theorem utf8Len_eq_zero {s : String} : utf8Len s = 0 ↔ s = "" := by
  constructor
  · intro h
    cases s with
    | mk data =>
      cases data with
      | nil => rfl
      | cons c cs =>
        simp only [utf8Len, List.map_cons, List.sum_cons, Nat.add_eq_zero] at h
        have := Char.utf8Size_pos c
        omega
  · intro h; subst h; rfl

theorem lookupA_setA {α : Type} (m : List (String × α)) (k k' : String) (v : α) :
    lookupA (setA m k v) k' = if k = k' then some v else lookupA m k' := by
  induction m with
  | nil =>
    by_cases h : k = k' <;> simp [setA, lookupA, h]
  | cons kv rest ih =>
    obtain ⟨k₀, v₀⟩ := kv
    by_cases h0 : k₀ = k
    · subst h0
      by_cases h : k₀ = k' <;> simp [setA, lookupA, h]
    · by_cases h : k₀ = k'
      · have hk : ¬k = k' := fun hh => h0 (h.trans hh.symm)
        have hk' : ¬k' = k := fun hh => hk hh.symm
        simp [setA, lookupA, h0, h, hk, hk']
      · simp [setA, lookupA, h0, h, ih]

theorem splitOnCharAux_ne_nil (sep : Char) (l acc : List Char) :
    splitOnCharAux sep l acc ≠ [] := by
  induction l generalizing acc with
  | nil => simp [splitOnCharAux]
  | cons c cs ih =>
    by_cases h : c = sep <;> simp [splitOnCharAux, h, ih]

theorem goSplit_ne_nil (sep : Char) (s : String) : goSplit sep s ≠ [] := by
  simp only [goSplit, ne_eq, List.map_eq_nil_iff]
  exact splitOnCharAux_ne_nil sep s.data []

theorem labelHasInvalidChars_eq (label : String) :
    labelHasInvalidChars label = !labelCharsOK label := by
  simp [labelHasInvalidChars, labelCharsOK, List.all_eq_not_any_not]

theorem all_and_split (p q : String → Bool) (l : List String) :
    l.all (fun x => p x && q x) = (l.all p && l.all q) := by
  induction l with
  | nil => rfl
  | cons x xs ih =>
    simp only [List.all_cons, ih]
    cases p x <;> cases q x <;> cases xs.all p <;> cases xs.all q <;> rfl

theorem validateLabels_pos (labels : List String) (i : Nat) (hi : i ≠ 0) :
    validateLabels i labels =
      labels.all (fun l => labelCharsOK l && decide (utf8Len l ≤ 63)) := by
  induction labels generalizing i with
  | nil => rfl
  | cons label rest ih =>
    have hi' : (i != 0) = true := by simpa using hi
    simp only [validateLabels, hi', Bool.true_or, Bool.true_and,
      labelHasInvalidChars_eq, List.all_cons]
    cases hc : labelCharsOK label with
    | false => simp
    | true =>
      simp only [Bool.not_true, if_false, Bool.true_and]
      by_cases hl : 63 < utf8Len label
      · simp [hl, Nat.not_le.mpr hl]
      · simp [hl, Nat.not_lt.mp hl, ih (i + 1) (Nat.succ_ne_zero i)]

theorem validateHostname_eq_spec (hostname : String) :
    validateHostname hostname = specValidHostname hostname := by
  unfold validateHostname specValidHostname
  by_cases h253 : 253 < utf8Len hostname
  · simp [h253, Nat.not_le.mpr h253]
  · simp only [h253, if_false, Nat.not_lt.mp h253, decide_eq_true_eq, decide_True,
      Bool.true_and]
    rcases hp : goSplit '.' hostname with _ | ⟨first, rest⟩
    · exact absurd hp (goSplit_ne_nil '.' hostname)
    · by_cases hlen : (first :: rest).length < 2
      · have h0 : rest.length = 0 := by
          have := hlen
          simp only [List.length_cons] at this
          omega
        have h2 : ¬2 ≤ (first :: rest).length := by
          simp only [List.length_cons, h0]
          omega
        simp [hlen, h0, h2]
      · simp only [hlen, if_false, decide_eq_true_eq]
        have hlen' : 2 ≤ (first :: rest).length := Nat.not_lt.mp hlen
        simp only [hlen', decide_True, Bool.true_and]
        have hone : (0 != 0 || first != "*") = (first != "*") := by simp
        simp only [validateLabels, hone, labelHasInvalidChars_eq,
          validateLabels_pos rest 1 (by decide), all_and_split, List.all_cons]
        rcases hstar : (first == "*") with _ | _
        · have : (first != "*") = true := by
            simpa using hstar
          simp only [this, Bool.true_and, Bool.false_or]
          cases hc : labelCharsOK first with
          | false => simp
          | true =>
            simp only [Bool.not_true, if_false, Bool.true_and]
            by_cases hl : 63 < utf8Len first
            · simp [hl, Nat.not_le.mpr hl]
            · simp only [hl, if_false, Nat.not_lt.mp hl, decide_True, Bool.true_and]
              cases rest.all (fun l => labelCharsOK l) <;>
                cases rest.all (fun l => decide (utf8Len l ≤ 63)) <;> simp
        · have hfs : first = "*" := by simpa using hstar
          have : (first != "*") = false := by simp [hfs]
          simp only [this, Bool.false_and, if_false, Bool.true_or, Bool.true_and]
          have hl : ¬63 < utf8Len first := by subst hfs; decide
          simp only [hl, if_false, Nat.not_lt.mp hl, decide_True, Bool.true_and]
          cases rest.all (fun l => labelCharsOK l) <;>
            cases rest.all (fun l => decide (utf8Len l ≤ 63)) <;> simp

theorem shouldRenew_iff (parse : String → Option Int) (now : Int)
    (d c : LetsEncryptCertificateState) :
    shouldRenew parse now d c = true ↔
      (d.Enabled = "true" ∧ d.Hostnames ≠ "" ∧
        (15 : Int) * 60 < now - parseTimeOrZero parse c.LastAttempt ∧
        (d.Hostnames ≠ c.Hostnames ∨
          (60 : Int) * 24 * 60 * 60 < now - parseTimeOrZero parse c.LastRenewed)) := by
  have h0 : 0 < utf8Len d.Hostnames ↔ d.Hostnames ≠ "" := by
    rw [Nat.pos_iff_ne_zero]
    exact not_congr utf8Len_eq_zero
  simp only [shouldRenew, Bool.and_eq_true, Bool.or_eq_true, beq_iff_eq, bne_iff_ne,
    decide_eq_true_eq, ne_eq, h0]
  tauto

theorem afterWrite_status (env : RenewEnv) (d : LetsEncryptCertificateState)
    (certs : CertBundle) (written : Secret) (srcNs srcName : String) :
    (afterWrite env d certs written srcNs srcName).status = "failed" ∨
      (afterWrite env d certs written srcNs srcName).status = "succeeded" := by
  unfold afterWrite
  dsimp only
  repeat' split
  all_goals first
  | exact Or.inl rfl
  | exact Or.inr rfl

theorem attemptRenewal_status (env : RenewEnv) (secret : Secret)
    (d : LetsEncryptCertificateState) :
    (attemptRenewal env secret d).status = "failed" ∨
      (attemptRenewal env secret d).status = "succeeded" := by
  unfold attemptRenewal
  repeat' split
  all_goals first
  | exact Or.inl rfl
  | exact Or.inr rfl
  | apply afterWrite_status

theorem makeSecretChanges_renew (env : RenewEnv) (secret : Secret)
    (d c : LetsEncryptCertificateState)
    (hs : shouldRenew env.parseTime env.now d c = true) :
    makeSecretChanges env secret d c =
      ⟨(attemptRenewal env secret d).status, (attemptRenewal env secret d).err,
        Action.updateSecret (lockedSecret env secret c) :: (attemptRenewal env secret d).trace⟩ := by
  simp [makeSecretChanges, hs]

theorem makeSecretChanges_skip (env : RenewEnv) (secret : Secret)
    (d c : LetsEncryptCertificateState)
    (hs : shouldRenew env.parseTime env.now d c = false) :
    makeSecretChanges env secret d c = ⟨"skipped", none, []⟩ := by
  simp [makeSecretChanges, hs]

/-! ## Claim theorems -/

/-- Claim C1: makeSecretChanges attempts a renewal iff the secret is
enabled, has hostnames, the 15-minute attempt lock has expired (a missing
LastAttempt parses to the zero time, hence counts as unlocked) and either
the hostnames changed or the certificate is over 60*24 hours old; when the
condition is false the result is status "skipped" with no error and no
write; and a LastAttempt equal to the freshly formatted "now" forces
"skipped" on an immediately following pass even if the hostnames changed. -/
theorem spec_C1 (env : RenewEnv) (secret : Secret)
    (desiredState currentState : LetsEncryptCertificateState) :
    ((makeSecretChanges env secret desiredState currentState).status = "skipped" ↔
      ¬(desiredState.Enabled = "true" ∧ desiredState.Hostnames ≠ "" ∧
        (15 : Int) * 60 < env.now - parseTimeOrZero env.parseTime currentState.LastAttempt ∧
        (desiredState.Hostnames ≠ currentState.Hostnames ∨
          (60 : Int) * 24 * 60 * 60 <
            env.now - parseTimeOrZero env.parseTime currentState.LastRenewed))) ∧
    ((makeSecretChanges env secret desiredState currentState).status = "skipped" →
      (makeSecretChanges env secret desiredState currentState).err = none ∧
      (makeSecretChanges env secret desiredState currentState).trace = []) ∧
    ((makeSecretChanges env secret desiredState currentState).status ≠ "skipped" →
      (makeSecretChanges env secret desiredState currentState).trace.head? =
        some (Action.updateSecret (lockedSecret env secret currentState))) ∧
    (env.fmtTime env.now ≠ "" →
      env.parseTime (env.fmtTime env.now) = some env.now →
      currentState.LastAttempt = env.fmtTime env.now →
      (makeSecretChanges env secret desiredState currentState).status = "skipped") := by
  by_cases hs : shouldRenew env.parseTime env.now desiredState currentState = true
  · have hmk := makeSecretChanges_renew env secret desiredState currentState hs
    have hne : (makeSecretChanges env secret desiredState currentState).status ≠ "skipped" := by
      rw [hmk]
      rcases attemptRenewal_status env secret desiredState with h | h <;> simp [h]
    refine ⟨⟨fun h => absurd h hne, fun hnc => absurd
        ((shouldRenew_iff env.parseTime env.now desiredState currentState).mp hs) hnc⟩,
      fun h => absurd h hne, fun _ => by rw [hmk]; simp, ?_⟩
    intro hfmt hparse hla
    exfalso
    have hz : parseTimeOrZero env.parseTime currentState.LastAttempt = env.now := by
      rw [hla]
      simp [parseTimeOrZero, hfmt, hparse]
    obtain ⟨-, -, h900, -⟩ :=
      (shouldRenew_iff env.parseTime env.now desiredState currentState).mp hs
    rw [hz] at h900
    omega
  · have hs' : shouldRenew env.parseTime env.now desiredState currentState = false :=
      Bool.eq_false_iff.mpr hs
    have hmk := makeSecretChanges_skip env secret desiredState currentState hs'
    refine ⟨⟨fun _ hc => absurd
        ((shouldRenew_iff env.parseTime env.now desiredState currentState).mpr hc) hs,
      fun _ => by rw [hmk]⟩,
      fun _ => by rw [hmk]; exact ⟨rfl, rfl⟩,
      fun h => absurd (by rw [hmk]) h,
      fun _ _ _ => by rw [hmk]⟩

/-- Witness for C1: with LastAttempt set to the formatted current time the
pass is skipped even though the hostnames changed. -/
theorem spec_C1_witness :
    (makeSecretChanges wEnvC1 wSecretC1 wDesiredC1 wCurrentC1).status = "skipped" :=
  (spec_C1 wEnvC1 wSecretC1 wDesiredC1 wCurrentC1).2.2.2
    (by decide) (by decide) (by decide)

/-- Claim C5: validateHostname agrees with the specification's
characterisation on every string, and on the specification's examples:
estafette.io, ESTAFETTE.IO and *.estafette.io are valid; a 64-byte label, a
label with an underscore, and a 255-byte hostname of individually valid
labels are invalid. -/
theorem spec_C5 :
    (∀ hostname : String, validateHostname hostname = specValidHostname hostname) ∧
    validateHostname "estafette.io" = true ∧
    validateHostname "ESTAFETTE.IO" = true ∧
    validateHostname "*.estafette.io" = true ∧
    validateHostname (label64 ++ ".estafette.io") = false ∧
    validateHostname "gke_site.estafette.io" = false ∧
    253 < utf8Len longHostname ∧
    (∀ l ∈ goSplit '.' longHostname, utf8Len l ≤ 63) ∧
    validateHostname longHostname = false :=
  ⟨validateHostname_eq_spec, by decide, by decide, by decide, by decide, by decide,
    by decide, by decide, by decide⟩

/-- Claim C10: a non-empty LastAttempt or LastRenewed string that fails to
parse is treated as the zero time, so with enablement and hostnames set and
a realistic clock the renewal proceeds immediately: no error is raised and
the pass is not skipped, the lock write being the first action. -/
theorem spec_C10 (env : RenewEnv) (secret : Secret)
    (d c : LetsEncryptCertificateState)
    (hA : env.parseTime c.LastAttempt = none) (hA' : c.LastAttempt ≠ "")
    (hR : env.parseTime c.LastRenewed = none) (hR' : c.LastRenewed ≠ "")
    (hEn : d.Enabled = "true") (hHn : d.Hostnames ≠ "")
    (hNow : (60 : Int) * 24 * 60 * 60 < env.now) :
    shouldRenew env.parseTime env.now d c = true ∧
    (makeSecretChanges env secret d c).status ≠ "skipped" ∧
    (makeSecretChanges env secret d c).trace.head? =
      some (Action.updateSecret (lockedSecret env secret c)) := by
  have hzA : parseTimeOrZero env.parseTime c.LastAttempt = 0 := by
    simp [parseTimeOrZero, hA', hA]
  have hzR : parseTimeOrZero env.parseTime c.LastRenewed = 0 := by
    simp [parseTimeOrZero, hR', hR]
  have hs : shouldRenew env.parseTime env.now d c = true := by
    refine (shouldRenew_iff env.parseTime env.now d c).mpr
      ⟨hEn, hHn, ?_, Or.inr ?_⟩
    · rw [hzA]; omega
    · rw [hzR]; omega
  refine ⟨hs, ?_, ?_⟩
  · rw [makeSecretChanges_renew env secret d c hs]
    rcases attemptRenewal_status env secret d with h | h <;> simp [h]
  · rw [makeSecretChanges_renew env secret d c hs]
    simp

/-- Witness for C10: corrupted timestamp strings on a realistic clock. -/
theorem spec_C10_witness :
    shouldRenew wEnvC10.parseTime wEnvC10.now wDesiredC1 wCurrentC10 = true ∧
    (makeSecretChanges wEnvC10 wSecretC1 wDesiredC1 wCurrentC10).status ≠ "skipped" :=
  have h := spec_C10 wEnvC10 wSecretC1 wDesiredC1 wCurrentC10
    rfl (by decide) rfl (by decide) rfl (by decide) (by decide)
  ⟨h.1, h.2.1⟩

/-- Claim C6: with the zone resolved, UpsertSSLConfigurationByDNSName
issues no write and returns the first listed configuration unchanged when
its recorded expiry equals the NotAfter parsed from the candidate PEM;
patches that first entry's ID with the new certificate and key when the
expiries differ; and creates a configuration when none exists. -/
theorem spec_C6 (env : CfEnv) (dnsName certificate privateKey : String) (zone : Zone)
    (hz : (GetZoneByDNSName env.zonesQuery dnsName).2 = Except.ok zone) :
    (∀ cfg rest, env.listCerts zone.id = ⟨true, cfg :: rest⟩ →
      env.parseNotAfter certificate = Except.ok cfg.expiresOn →
      UpsertSSLConfigurationByDNSName env dnsName certificate privateKey =
        ⟨[], cfg, none⟩) ∧
    (∀ cfg rest t, env.listCerts zone.id = ⟨true, cfg :: rest⟩ →
      env.parseNotAfter certificate = Except.ok t → t ≠ cfg.expiresOn →
      (UpsertSSLConfigurationByDNSName env dnsName certificate privateKey).writes =
        [CfWrite.patchCert zone.id cfg.id
          { zeroSSLConfiguration with
              certificate := certificate, privateKey := privateKey }]) ∧
    (env.listCerts zone.id = ⟨true, []⟩ →
      (UpsertSSLConfigurationByDNSName env dnsName certificate privateKey).writes =
        [CfWrite.postCert zone.id
          { zeroSSLConfiguration with
              certificate := certificate, privateKey := privateKey }]) := by
  refine ⟨?_, ?_, ?_⟩
  · intro cfg rest hlist hparse
    simp [UpsertSSLConfigurationByDNSName, hz, hlist, CertificateEqual, hparse]
  · intro cfg rest t hlist hparse hne
    have hbeq : (cfg.expiresOn == t) = false := by
      simp only [beq_eq_false_iff_ne, ne_eq]
      exact fun hh => hne hh.symm
    simp only [UpsertSSLConfigurationByDNSName, hz, hlist, CertificateEqual, hparse]
    simp only [hbeq, Option.isSome_none, Bool.false_eq_true, or_self, if_false]
    by_cases hp : env.patchResult.success = false <;> simp [hp]
  · intro hlist
    simp only [UpsertSSLConfigurationByDNSName, hz, hlist]
    by_cases hp : env.createResult.success = false <;> simp [hp]

/-- Witness for C6: an existing configuration whose recorded expiry 500
equals the parsed NotAfter of the candidate: no write, record returned
unchanged. -/
theorem spec_C6_witness :
    UpsertSSLConfigurationByDNSName wCfEnvC6 "estafette.io" "CERTPEM" "KEYPEM" =
      ⟨[], wOldCfgC6, none⟩ :=
  (spec_C6 wCfEnvC6 "estafette.io" "CERTPEM" "KEYPEM" wZoneC3 rfl).1
    wOldCfgC6 [] rfl rfl

/-- Claim C7: getCurrentSecretState is total; a missing state annotation or
a failing decode yields the zero-value state, a successful decode yields
the decoded state, and no error is ever returned or propagated (the
function's type has no error component). -/
theorem spec_C7 (unmarshalState : String → Option LetsEncryptCertificateState)
    (secret : Secret) :
    (lookupA secret.annotations annotationLetsEncryptCertificateState = none →
      getCurrentSecretState unmarshalState secret = zeroState) ∧
    (∀ s, lookupA secret.annotations annotationLetsEncryptCertificateState = some s →
      unmarshalState s = none → getCurrentSecretState unmarshalState secret = zeroState) ∧
    (∀ s st, lookupA secret.annotations annotationLetsEncryptCertificateState = some s →
      unmarshalState s = some st → getCurrentSecretState unmarshalState secret = st) := by
  refine ⟨?_, ?_, ?_⟩
  · intro h
    simp [getCurrentSecretState, h]
  · intro s h hu
    simp [getCurrentSecretState, h, hu]
  · intro s st h hu
    simp [getCurrentSecretState, h, hu]

/-- Witness for C7: a state annotation that fails to decode self-heals to
the zero state. -/
theorem spec_C7_witness :
    getCurrentSecretState (fun _ => none) wSecretC7 = zeroState :=
  (spec_C7 (fun _ => none) wSecretC7).2.1 "not-json" (by decide) rfl

/-- Claim C9: replication always skips the source namespace and inactive
namespaces; a copy created in a fresh namespace carries the data and
exactly two annotations (the verbatim state annotation and the linked-secret
back-reference), omitting the enablement and hostnames annotations; an
existing secret is updated only in its data and state annotation, all
other fields preserved. -/
theorem spec_C9 (env : CopyEnv) (secret : Secret) (ns : K8sNamespace) :
    ((ns.name = secret.nsName ∨ ns.phase ≠ "Active") →
      copySecretToNamespace env secret ns = (none, [])) ∧
    (¬(ns.name = secret.nsName ∨ ns.phase ≠ "Active") →
      env.getOutcome = GetSecretOutcome.notFound →
      ∃ created,
        (copySecretToNamespace env secret ns).2 = [Action.createSecret created] ∧
        created.data = secret.data ∧
        created.labels = secret.labels ∧
        created.annotations.length = 2 ∧
        lookupA created.annotations annotationLetsEncryptCertificateLinkedSecret =
          some (secret.nsName ++ "/" ++ secret.name) ∧
        lookupA created.annotations annotationLetsEncryptCertificateState =
          some ((lookupA secret.annotations annotationLetsEncryptCertificateState).getD "") ∧
        lookupA created.annotations annotationLetsEncryptCertificate = none ∧
        lookupA created.annotations annotationLetsEncryptCertificateHostnames = none) ∧
    (¬(ns.name = secret.nsName ∨ ns.phase ≠ "Active") →
      ∀ existing, env.getOutcome = GetSecretOutcome.found existing →
      ∃ updated,
        (copySecretToNamespace env secret ns).2 = [Action.updateSecret updated] ∧
        updated.data = secret.data ∧
        lookupA updated.annotations annotationLetsEncryptCertificateState =
          some ((lookupA secret.annotations annotationLetsEncryptCertificateState).getD "") ∧
        (∀ k, k ≠ annotationLetsEncryptCertificateState →
          lookupA updated.annotations k = lookupA existing.annotations k) ∧
        updated.name = existing.name ∧ updated.nsName = existing.nsName ∧
        updated.labels = existing.labels) := by
  refine ⟨?_, ?_, ?_⟩
  · intro h
    simp [copySecretToNamespace, h]
  · intro h hget
    have hc : (copySecretToNamespace env secret ns).2 = [Action.createSecret
        ⟨secret.name, ns.name, secret.labels,
          [(annotationLetsEncryptCertificateLinkedSecret,
             secret.nsName ++ "/" ++ secret.name),
           (annotationLetsEncryptCertificateState,
             (lookupA secret.annotations annotationLetsEncryptCertificateState).getD "")],
          secret.data⟩] := by
      simp [copySecretToNamespace, h, hget]
    refine ⟨_, hc, rfl, rfl, rfl, ?_, ?_, ?_, ?_⟩
    · simp [lookupA]
    · simp [lookupA, annotationLetsEncryptCertificateLinkedSecret,
        annotationLetsEncryptCertificateState]
    · simp [lookupA, annotationLetsEncryptCertificateLinkedSecret,
        annotationLetsEncryptCertificateState, annotationLetsEncryptCertificate]
    · simp [lookupA, annotationLetsEncryptCertificateLinkedSecret,
        annotationLetsEncryptCertificateState, annotationLetsEncryptCertificateHostnames]
  · intro h existing hget
    have hu : (copySecretToNamespace env secret ns).2 = [Action.updateSecret
        ⟨existing.name, existing.nsName, existing.labels,
          setA existing.annotations annotationLetsEncryptCertificateState
            ((lookupA secret.annotations annotationLetsEncryptCertificateState).getD ""),
          secret.data⟩] := by
      simp [copySecretToNamespace, h, hget]
    refine ⟨_, hu, rfl, ?_, ?_, rfl, rfl, rfl⟩
    · rw [lookupA_setA]
      simp
    · intro k hk
      rw [lookupA_setA]
      exact if_neg (fun hh => hk hh.symm)

/-- Witness for C9: creating a copy in a fresh active namespace. -/
theorem spec_C9_witness :
    ∃ created,
      (copySecretToNamespace wCopyEnvC9 wSecretC9 wNamespaceC9).2 =
        [Action.createSecret created] ∧
      created.data = wSecretC9.data ∧
      created.labels = wSecretC9.labels ∧
      created.annotations.length = 2 ∧
      lookupA created.annotations annotationLetsEncryptCertificateLinkedSecret =
        some (wSecretC9.nsName ++ "/" ++ wSecretC9.name) ∧
      lookupA created.annotations annotationLetsEncryptCertificateState =
        some ((lookupA wSecretC9.annotations annotationLetsEncryptCertificateState).getD "") ∧
      lookupA created.annotations annotationLetsEncryptCertificate = none ∧
      lookupA created.annotations annotationLetsEncryptCertificateHostnames = none :=
  (spec_C9 wCopyEnvC9 wSecretC9 wNamespaceC9).2.1 (by decide) rfl

theorem lastUpdatePayload_append (t1 t2 : List Action) :
    lastUpdatePayload (t1 ++ t2) =
      (lastUpdatePayload t2).or (lastUpdatePayload t1) := by
  induction t1 with
  | nil => simp [lastUpdatePayload]
  | cons x rest ih =>
    cases x <;>
      cases h2 : lastUpdatePayload t2 <;>
        simp_all [lastUpdatePayload, Option.or]

theorem lastUpdatePayload_cons_update (s : Secret) (tr : List Action) (w : Secret)
    (h : lastUpdatePayload tr = some w) :
    lastUpdatePayload (Action.updateSecret s :: tr) = some w := by
  simp [lastUpdatePayload, h]

theorem afterWrite_lastUpdate (env : RenewEnv) (d : LetsEncryptCertificateState)
    (certs : CertBundle) (written : Secret) (srcNs srcName : String) :
    lastUpdatePayload (afterWrite env d certs written srcNs srcName).trace = some written := by
  unfold afterWrite
  dsimp only
  repeat' split
  all_goals simp [lastUpdatePayload]

theorem attemptRenewal_success (env : RenewEnv) (secret : Secret)
    (d : LetsEncryptCertificateState) (certs : CertBundle) (reloaded : Secret)
    (h1 : env.lockUpdateErr = none)
    (h2 : (goSplit ',' d.Hostnames).find? (fun h => !validateHostname h) = none)
    (h3 : env.accountReadErr = none) (h4 : env.accountUnmarshalErr = none)
    (h5 : env.privateKeyErr = none) (h6 : env.legoClientErr = none)
    (h7 : env.providerErr = none) (h8 : env.obtainErr = none)
    (h9 : env.obtainCerts = some certs) (h10 : env.reloadResult = Except.ok reloaded) :
    attemptRenewal env secret d =
      afterWrite env d certs (writtenSecret env d certs reloaded)
        secret.nsName secret.name := by
  unfold attemptRenewal
  rw [h1, h2, h3, h4, h5, h6, h7, h8, h9, h10]

theorem materializeData_lookups (data0 : List (String × List Nat))
    (certs : CertBundle) (jsonBytes : List Nat) :
    lookupA (materializeData data0 certs jsonBytes) "ssl.crt" = some certs.Certificate ∧
    lookupA (materializeData data0 certs jsonBytes) "ssl.key" = some certs.PrivateKey ∧
    lookupA (materializeData data0 certs jsonBytes) "ssl.pem" =
      some (certs.Certificate ++ certs.PrivateKey) ∧
    lookupA (materializeData data0 certs jsonBytes) "ssl.json" = some jsonBytes ∧
    lookupA (materializeData data0 certs jsonBytes) "tls.crt" = some certs.Certificate ∧
    lookupA (materializeData data0 certs jsonBytes) "tls.key" = some certs.PrivateKey ∧
    lookupA (materializeData data0 certs jsonBytes) "tls.pem" =
      some (certs.Certificate ++ certs.PrivateKey) ∧
    lookupA (materializeData data0 certs jsonBytes) "tls.json" = some jsonBytes ∧
    (∀ issuer, certs.IssuerCertificate = some issuer →
      lookupA (materializeData data0 certs jsonBytes) "ssl.issuer.crt" = some issuer ∧
      lookupA (materializeData data0 certs jsonBytes) "tls.issuer.crt" = some issuer) ∧
    (certs.IssuerCertificate = none →
      lookupA (materializeData data0 certs jsonBytes) "ssl.issuer.crt" =
        lookupA data0 "ssl.issuer.crt" ∧
      lookupA (materializeData data0 certs jsonBytes) "tls.issuer.crt" =
        lookupA data0 "tls.issuer.crt") := by
  rcases hIss : certs.IssuerCertificate with _ | issuer <;>
    simp [materializeData, hIss, lookupA_setA]

/-- Claim C2, amended: when the certificate was successfully written and
the subsequent namespace replication or Cloudflare upload fails, the error
is returned to the caller (and logged), but the reconciliation is still
reported as succeeded: makeSecretChanges keeps status "succeeded" (the
value counted by the metric), processSecret posts the Normal
SuccessfulObtain event rather than a failure event, and the written
certificate data is not rolled back. -/
theorem spec_C2 :
    (∀ (env : RenewEnv) (secret reloaded : Secret)
        (d c : LetsEncryptCertificateState) (certs : CertBundle) (e : KubeErr),
      shouldRenew env.parseTime env.now d c = true →
      env.lockUpdateErr = none →
      (goSplit ',' d.Hostnames).find? (fun h => !validateHostname h) = none →
      env.accountReadErr = none → env.accountUnmarshalErr = none →
      env.privateKeyErr = none → env.legoClientErr = none → env.providerErr = none →
      env.obtainErr = none → env.obtainCerts = some certs →
      env.reloadResult = Except.ok reloaded →
      env.finalUpdateErr = none →
      ((d.CopyToAllNamespaces = true ∧ env.copyErr = some e) ∨
        (d.UploadToCloudflare = true ∧ (d.CopyToAllNamespaces = true → env.copyErr = none) ∧
          env.uploadErr = some e)) →
      (makeSecretChanges env secret d c).status = "succeeded" ∧
      (makeSecretChanges env secret d c).err = some e ∧
      ∃ written, lastUpdatePayload (makeSecretChanges env secret d c).trace = some written ∧
        lookupA written.data "ssl.crt" = some certs.Certificate ∧
        lookupA written.data "ssl.key" = some certs.PrivateKey) ∧
    (∀ (penv : ProcessEnv) (s : Secret),
      (makeSecretChanges penv.renewEnv s (getDesiredSecretState s)
          (getCurrentSecretState penv.unmarshalState s)).status = "succeeded" →
      (processSecret penv (some s)).status = "succeeded" ∧
      (processSecret penv (some s)).err = penv.postSucceededErr ∧
      (processSecret penv (some s)).trace.getLast? =
        some (Action.postEvent s.nsName "Normal" "Succeeded" "SuccessfulObtain")) := by
  constructor
  · intro env secret reloaded d c certs e hs h1 h2 h3 h4 h5 h6 h7 h8 h9 h10 h11 h12
    have hbody := attemptRenewal_success env secret d certs reloaded h1 h2 h3 h4 h5 h6 h7 h8 h9 h10
    have hlast : lastUpdatePayload (makeSecretChanges env secret d c).trace =
        some (writtenSecret env d certs reloaded) := by
      rw [makeSecretChanges_renew env secret d c hs]
      refine lastUpdatePayload_cons_update _ _ _ ?_
      rw [hbody]
      exact afterWrite_lastUpdate env d certs (writtenSecret env d certs reloaded)
        secret.nsName secret.name
    have hdata := materializeData_lookups reloaded.data certs (env.marshalIndentCert certs)
    have hWdata : (writtenSecret env d certs reloaded).data =
        materializeData reloaded.data certs (env.marshalIndentCert certs) := rfl
    have hres : (makeSecretChanges env secret d c).status = "succeeded" ∧
        (makeSecretChanges env secret d c).err = some e := by
      rw [makeSecretChanges_renew env secret d c hs, hbody]
      rcases h12 with ⟨hc, he⟩ | ⟨hu, hcn, hue⟩
      · simp [afterWrite, h11, hc, he]
      · by_cases hcc : d.CopyToAllNamespaces = true
        · simp [afterWrite, h11, hcc, hcn hcc, hu, hue]
        · have hcf : d.CopyToAllNamespaces = false := Bool.eq_false_iff.mpr hcc
          simp [afterWrite, h11, hcf, hu, hue]
    exact ⟨hres.1, hres.2, writtenSecret env d certs reloaded, hlast,
      by rw [hWdata]; exact hdata.1, by rw [hWdata]; exact hdata.2.1⟩
  · intro penv s hsucc
    refine ⟨?_, ?_, ?_⟩ <;>
      simp [processSecret, hsucc, List.getLast?_concat]

/-- Counterexample to C2 as stated: with the certificate successfully
written and the namespace replication then failing, the reconciliation is
reported as "succeeded", the Normal SuccessfulObtain event is posted, and
no Warning event appears in the trace - not a failed outcome with a failure
Event. -/
theorem spec_C2_cex :
    (makeSecretChanges cexEnvC2 cexSecretC2 (getDesiredSecretState cexSecretC2)
        (getCurrentSecretState (fun _ => none) cexSecretC2)).status = "succeeded" ∧
    (makeSecretChanges cexEnvC2 cexSecretC2 (getDesiredSecretState cexSecretC2)
        (getCurrentSecretState (fun _ => none) cexSecretC2)).err =
      some (KubeErr.code 7) ∧
    (processSecret cexPEnvC2 (some cexSecretC2)).status = "succeeded" ∧
    (processSecret cexPEnvC2 (some cexSecretC2)).status ≠ "failed" ∧
    (processSecret cexPEnvC2 (some cexSecretC2)).trace.getLast? =
      some (Action.postEvent "team-a" "Normal" "Succeeded" "SuccessfulObtain") ∧
    ((processSecret cexPEnvC2 (some cexSecretC2)).trace.all fun a =>
        match a with
        | Action.postEvent _ "Warning" _ _ => false
        | _ => true) = true := by
  decide

/-- Witness for the amended C2, at the concrete replication-failure run. -/
theorem spec_C2_witness :
    ((makeSecretChanges cexEnvC2 cexSecretC2 (getDesiredSecretState cexSecretC2)
        (getCurrentSecretState (fun _ => none) cexSecretC2)).status = "succeeded" ∧
      (makeSecretChanges cexEnvC2 cexSecretC2 (getDesiredSecretState cexSecretC2)
          (getCurrentSecretState (fun _ => none) cexSecretC2)).err =
        some (KubeErr.code 7) ∧
      ∃ written,
        lastUpdatePayload (makeSecretChanges cexEnvC2 cexSecretC2
            (getDesiredSecretState cexSecretC2)
            (getCurrentSecretState (fun _ => none) cexSecretC2)).trace = some written ∧
        lookupA written.data "ssl.crt" = some cexBundleC2.Certificate ∧
        lookupA written.data "ssl.key" = some cexBundleC2.PrivateKey) ∧
    ((processSecret cexPEnvC2 (some cexSecretC2)).status = "succeeded" ∧
      (processSecret cexPEnvC2 (some cexSecretC2)).err = cexPEnvC2.postSucceededErr ∧
      (processSecret cexPEnvC2 (some cexSecretC2)).trace.getLast? =
        some (Action.postEvent cexSecretC2.nsName "Normal" "Succeeded"
          "SuccessfulObtain")) :=
  ⟨spec_C2.1 cexEnvC2 cexSecretC2 cexSecretC2 (getDesiredSecretState cexSecretC2)
      (getCurrentSecretState (fun _ => none) cexSecretC2) cexBundleC2 (KubeErr.code 7)
      (by decide) rfl (by decide) rfl rfl rfl rfl rfl rfl rfl rfl rfl
      (Or.inl ⟨by decide, rfl⟩),
    spec_C2.2 cexPEnvC2 cexSecretC2 (by decide)⟩

/-- Claim C8, amended: the successful write stores ssl.crt, ssl.key,
ssl.pem (certificate followed by key), ssl.json (the indented JSON bundle
encoding) with byte-identical tls.* mirrors, and writes ssl.issuer.crt and
tls.issuer.crt when an issuer certificate was returned; when no issuer was
returned the issuer keys are left untouched, so a stale pre-existing issuer
entry of the reloaded secret persists (instead of the keys being present
exactly when an issuer was returned). -/
theorem spec_C8 (env : RenewEnv) (secret reloaded : Secret)
    (d c : LetsEncryptCertificateState) (certs : CertBundle)
    (hs : shouldRenew env.parseTime env.now d c = true)
    (h1 : env.lockUpdateErr = none)
    (h2 : (goSplit ',' d.Hostnames).find? (fun h => !validateHostname h) = none)
    (h3 : env.accountReadErr = none) (h4 : env.accountUnmarshalErr = none)
    (h5 : env.privateKeyErr = none) (h6 : env.legoClientErr = none)
    (h7 : env.providerErr = none) (h8 : env.obtainErr = none)
    (h9 : env.obtainCerts = some certs) (h10 : env.reloadResult = Except.ok reloaded) :
    ∃ written,
      lastUpdatePayload (makeSecretChanges env secret d c).trace = some written ∧
      lookupA written.data "ssl.crt" = some certs.Certificate ∧
      lookupA written.data "ssl.key" = some certs.PrivateKey ∧
      lookupA written.data "ssl.pem" = some (certs.Certificate ++ certs.PrivateKey) ∧
      lookupA written.data "ssl.json" = some (env.marshalIndentCert certs) ∧
      lookupA written.data "tls.crt" = lookupA written.data "ssl.crt" ∧
      lookupA written.data "tls.key" = lookupA written.data "ssl.key" ∧
      lookupA written.data "tls.pem" = lookupA written.data "ssl.pem" ∧
      lookupA written.data "tls.json" = lookupA written.data "ssl.json" ∧
      (∀ issuer, certs.IssuerCertificate = some issuer →
        lookupA written.data "ssl.issuer.crt" = some issuer ∧
        lookupA written.data "tls.issuer.crt" = some issuer) ∧
      (certs.IssuerCertificate = none →
        lookupA written.data "ssl.issuer.crt" = lookupA reloaded.data "ssl.issuer.crt" ∧
        lookupA written.data "tls.issuer.crt" = lookupA reloaded.data "tls.issuer.crt") := by
  have hbody := attemptRenewal_success env secret d certs reloaded h1 h2 h3 h4 h5 h6 h7 h8 h9 h10
  have hlast : lastUpdatePayload (makeSecretChanges env secret d c).trace =
      some (writtenSecret env d certs reloaded) := by
    rw [makeSecretChanges_renew env secret d c hs]
    refine lastUpdatePayload_cons_update _ _ _ ?_
    rw [hbody]
    exact afterWrite_lastUpdate env d certs (writtenSecret env d certs reloaded)
      secret.nsName secret.name
  obtain ⟨d1, d2, d3, d4, d5, d6, d7, d8, d9, d10⟩ :=
    materializeData_lookups reloaded.data certs (env.marshalIndentCert certs)
  have hWdata : (writtenSecret env d certs reloaded).data =
      materializeData reloaded.data certs (env.marshalIndentCert certs) := rfl
  refine ⟨writtenSecret env d certs reloaded, hlast, ?_, ?_, ?_, ?_, ?_, ?_, ?_, ?_, ?_, ?_⟩
  · rw [hWdata, d1]
  · rw [hWdata, d2]
  · rw [hWdata, d3]
  · rw [hWdata, d4]
  · rw [hWdata, d5, d1]
  · rw [hWdata, d6, d2]
  · rw [hWdata, d7, d3]
  · rw [hWdata, d8, d4]
  · intro issuer hiss
    exact ⟨by rw [hWdata, (d9 issuer hiss).1], by rw [hWdata, (d9 issuer hiss).2]⟩
  · intro hnone
    exact ⟨by rw [hWdata, (d10 hnone).1], by rw [hWdata, (d10 hnone).2]⟩

/-- Counterexample to C8 as stated: a successful acquisition whose bundle
returned no issuer certificate still leaves a stale ssl.issuer.crt entry in
the written secret's data, so the issuer keys are not present exactly when
an issuer certificate was returned. -/
theorem spec_C8_cex :
    cexBundleC2.IssuerCertificate = none ∧
    (makeSecretChanges cexEnvC8 cexSecretC8 (getDesiredSecretState cexSecretC8)
        (getCurrentSecretState (fun _ => none) cexSecretC8)).status = "succeeded" ∧
    ((lastUpdatePayload (makeSecretChanges cexEnvC8 cexSecretC8
        (getDesiredSecretState cexSecretC8)
        (getCurrentSecretState (fun _ => none) cexSecretC8)).trace).map
      (fun s => lookupA s.data "ssl.issuer.crt")) = some (some [7, 7]) := by
  decide

/-- Witness for the amended C8, with an issuer certificate present. -/
theorem spec_C8_witness :
    ∃ written,
      lastUpdatePayload (makeSecretChanges wEnvC8 cexSecretC8
          (getDesiredSecretState cexSecretC8)
          (getCurrentSecretState (fun _ => none) cexSecretC8)).trace = some written ∧
      lookupA written.data "ssl.crt" = some wBundleC8.Certificate ∧
      lookupA written.data "ssl.key" = some wBundleC8.PrivateKey ∧
      lookupA written.data "ssl.pem" =
        some (wBundleC8.Certificate ++ wBundleC8.PrivateKey) ∧
      lookupA written.data "ssl.json" = some (wEnvC8.marshalIndentCert wBundleC8) ∧
      lookupA written.data "tls.crt" = lookupA written.data "ssl.crt" ∧
      lookupA written.data "tls.key" = lookupA written.data "ssl.key" ∧
      lookupA written.data "tls.pem" = lookupA written.data "ssl.pem" ∧
      lookupA written.data "tls.json" = lookupA written.data "ssl.json" ∧
      (∀ issuer, wBundleC8.IssuerCertificate = some issuer →
        lookupA written.data "ssl.issuer.crt" = some issuer ∧
        lookupA written.data "tls.issuer.crt" = some issuer) ∧
      (wBundleC8.IssuerCertificate = none →
        lookupA written.data "ssl.issuer.crt" =
          lookupA cexSecretC8.data "ssl.issuer.crt" ∧
        lookupA written.data "tls.issuer.crt" =
          lookupA cexSecretC8.data "tls.issuer.crt") :=
  spec_C8 wEnvC8 cexSecretC8 cexSecretC8 (getDesiredSecretState cexSecretC8)
    (getCurrentSecretState (fun _ => none) cexSecretC8) wBundleC8
    (by decide) rfl (by decide) rfl rfl rfl rfl rfl rfl rfl rfl

theorem getMatchingZoneFromZones_ne_noMatch (zones : List Zone) (zoneName : String) :
    getMatchingZoneFromZones zones zoneName ≠ Except.error CfError.noMatchingZoneFound := by
  unfold getMatchingZoneFromZones
  repeat' split
  all_goals simp

theorem getZoneLoop_trace_mono (query : String → ZonesResult) (parts : List String) :
    ∀ (fuel n : Nat) (zr : ZonesResult) (trace : List String),
      ∃ suffix, (getZoneLoop query parts fuel n zr trace).1 = trace ++ suffix := by
  intro fuel
  induction fuel with
  | zero =>
    intro n zr trace
    exact ⟨[], by simp [getZoneLoop]⟩
  | succ fuel ih =>
    intro n zr trace
    simp only [getZoneLoop]
    by_cases hc : (zr.resultInfo.totalCount = 0 ∨
        zr.resultInfo.perPage < zr.resultInfo.totalCount) ∧ n < parts.length
    · rw [if_pos hc]
      cases hgl : getLastItemsFromSlice parts (n + 1) with
      | error e => exact ⟨[], by simp⟩
      | ok zoneNameParts =>
        dsimp only
        by_cases hsucc : (query (joinDots zoneNameParts)).success = false
        · rw [if_pos hsucc]
          exact ⟨[joinDots zoneNameParts], rfl⟩
        · rw [if_neg hsucc]
          by_cases hfits : 0 < (query (joinDots zoneNameParts)).resultInfo.count ∧
              (query (joinDots zoneNameParts)).resultInfo.count ≤
                (query (joinDots zoneNameParts)).resultInfo.perPage
          · rw [if_pos hfits]
            exact ⟨[joinDots zoneNameParts], rfl⟩
          · rw [if_neg hfits]
            obtain ⟨suffix, hsfx⟩ :=
              ih (n + 1) (query (joinDots zoneNameParts)) (trace ++ [joinDots zoneNameParts])
            exact ⟨[joinDots zoneNameParts] ++ suffix, by rw [hsfx, List.append_assoc]⟩
    · rw [if_neg hc]
      exact ⟨[], by simp⟩

theorem getZoneLoop_stop (query : String → ZonesResult) (parts : List String) :
    ∀ (fuel n : Nat) (zr : ZonesResult) (trace : List String),
      (∀ q ∈ trace, ¬((query q).success = true ∧ pageFits (query q))) →
      ∀ q ∈ (getZoneLoop query parts fuel n zr trace).1,
        (query q).success = true → pageFits (query q) →
        (getZoneLoop query parts fuel n zr trace).1.getLast? = some q ∧
        (getZoneLoop query parts fuel n zr trace).2 =
          getMatchingZoneFromZones (query q).zones q := by
  intro fuel
  induction fuel with
  | zero =>
    intro n zr trace htr q hq hsucc hfits
    simp only [getZoneLoop] at hq ⊢
    exact absurd ⟨hsucc, hfits⟩ (htr q hq)
  | succ fuel ih =>
    intro n zr trace htr q hq hsucc hfits
    simp only [getZoneLoop] at hq ⊢
    by_cases hc : (zr.resultInfo.totalCount = 0 ∨
        zr.resultInfo.perPage < zr.resultInfo.totalCount) ∧ n < parts.length
    · rw [if_pos hc] at hq ⊢
      cases hgl : getLastItemsFromSlice parts (n + 1) with
      | error e =>
        rw [hgl] at hq
        dsimp only at hq
        exact absurd ⟨hsucc, hfits⟩ (htr q hq)
      | ok zoneNameParts =>
        rw [hgl] at hq
        dsimp only at hq ⊢
        by_cases hsf : (query (joinDots zoneNameParts)).success = false
        · rw [if_pos hsf] at hq ⊢
          rcases List.mem_append.mp hq with hq' | hq'
          · exact absurd ⟨hsucc, hfits⟩ (htr q hq')
          · have hqz : q = joinDots zoneNameParts := by simpa using hq'
            rw [hqz] at hsucc
            rw [hsucc] at hsf
            exact absurd hsf (by simp)
        · rw [if_neg hsf] at hq ⊢
          by_cases hfits2 : 0 < (query (joinDots zoneNameParts)).resultInfo.count ∧
              (query (joinDots zoneNameParts)).resultInfo.count ≤
                (query (joinDots zoneNameParts)).resultInfo.perPage
          · rw [if_pos hfits2] at hq ⊢
            rcases List.mem_append.mp hq with hq' | hq'
            · exact absurd ⟨hsucc, hfits⟩ (htr q hq')
            · have hqz : q = joinDots zoneNameParts := by simpa using hq'
              subst hqz
              exact ⟨List.getLast?_concat _, rfl⟩
          · rw [if_neg hfits2] at hq ⊢
            refine ih (n + 1) (query (joinDots zoneNameParts))
              (trace ++ [joinDots zoneNameParts]) ?_ q hq hsucc hfits
            intro q' hq'
            rcases List.mem_append.mp hq' with h | h
            · exact htr q' h
            · have : q' = joinDots zoneNameParts := by simpa using h
              subst this
              rintro ⟨hs', hf'⟩
              exact hfits2 hf'
    · rw [if_neg hc] at hq ⊢
      exact absurd ⟨hsucc, hfits⟩ (htr q hq)

/-- Claim C3: whenever a query issued by GetZoneByDNSName (initial or
widened) answers with a positive count that fits one page, the resolver is
terminal: that query is the last one issued, the result is the exact-name
scan of the returned page, returning the first zone whose name equals the
candidate and otherwise the no-match scan error. -/
theorem spec_C3 (query : String → ZonesResult) (dnsName q : String)
    (hq : q ∈ (GetZoneByDNSName query dnsName).1)
    (hsucc : (query q).success = true)
    (hcount : 0 < (query q).resultInfo.count)
    (hpp : (query q).resultInfo.count ≤ (query q).resultInfo.perPage) :
    (GetZoneByDNSName query dnsName).1.getLast? = some q ∧
    (GetZoneByDNSName query dnsName).2 = getMatchingZoneFromZones (query q).zones q ∧
    (∀ z, (query q).zones.find? (fun z' => z'.name == q) = some z →
      (GetZoneByDNSName query dnsName).2 = Except.ok z) ∧
    ((query q).zones ≠ [] → (query q).zones.find? (fun z' => z'.name == q) = none →
      (GetZoneByDNSName query dnsName).2 = Except.error CfError.noZoneMatchesName) := by
  have hfits : pageFits (query q) := ⟨hcount, hpp⟩
  have main : (GetZoneByDNSName query dnsName).1.getLast? = some q ∧
      (GetZoneByDNSName query dnsName).2 = getMatchingZoneFromZones (query q).zones q := by
    unfold GetZoneByDNSName at hq ⊢
    by_cases hlen : (goSplit '.' dnsName).length < 2
    · rw [if_pos hlen] at hq ⊢
      simp at hq
    · rw [if_neg hlen] at hq ⊢
      cases hgl : getLastItemsFromSlice (goSplit '.' dnsName) 2 with
      | error e =>
        rw [hgl] at hq
        dsimp only at hq
        simp at hq
      | ok zoneNameParts =>
        rw [hgl] at hq
        dsimp only at hq ⊢
        by_cases hsf : (query (joinDots zoneNameParts)).success = false
        · rw [if_pos hsf] at hq ⊢
          have hqz : q = joinDots zoneNameParts := by simpa using hq
          rw [hqz] at hsucc
          rw [hsucc] at hsf
          exact absurd hsf (by simp)
        · rw [if_neg hsf] at hq ⊢
          by_cases hfits2 : 0 < (query (joinDots zoneNameParts)).resultInfo.count ∧
              (query (joinDots zoneNameParts)).resultInfo.count ≤
                (query (joinDots zoneNameParts)).resultInfo.perPage
          · rw [if_pos hfits2] at hq ⊢
            have hqz : q = joinDots zoneNameParts := by simpa using hq
            subst hqz
            exact ⟨by simp, rfl⟩
          · rw [if_neg hfits2] at hq ⊢
            refine getZoneLoop_stop query (goSplit '.' dnsName) _ 2 _
              [joinDots zoneNameParts] ?_ q hq hsucc hfits
            intro q' hq'
            have : q' = joinDots zoneNameParts := by simpa using hq'
            subst this
            rintro ⟨hs', hf'⟩
            exact hfits2 hf'
  refine ⟨main.1, main.2, ?_, ?_⟩
  · intro z hz
    have hne : (query q).zones.length ≠ 0 := by
      intro h0
      rw [List.length_eq_zero] at h0
      rw [h0] at hz
      simp at hz
    rw [main.2]
    simp [getMatchingZoneFromZones, hne, hz]
  · intro hne hnone
    have hne' : (query q).zones.length ≠ 0 := by
      simpa [List.length_eq_zero] using hne
    rw [main.2]
    simp [getMatchingZoneFromZones, hne', hnone]

/-- Witness for C3: a single-page single-zone response for estafette.io
resolves to that zone with no further query. -/
theorem spec_C3_witness :
    (GetZoneByDNSName wQueryC3 "www.estafette.io").1.getLast? = some "estafette.io" ∧
    (GetZoneByDNSName wQueryC3 "www.estafette.io").2 =
      getMatchingZoneFromZones (wQueryC3 "estafette.io").zones "estafette.io" :=
  have h := spec_C3 wQueryC3 "www.estafette.io" "estafette.io"
    (by decide) (by decide) (by decide) (by decide)
  ⟨h.1, h.2.1⟩

theorem pageConsistent_widen (zr : ZonesResult) (hpc : pageConsistent zr)
    (hnf : ¬pageFits zr) :
    zr.resultInfo.totalCount = 0 ∨ zr.resultInfo.perPage < zr.resultInfo.totalCount := by
  obtain ⟨h0, h1, h2⟩ := hpc
  by_contra hcon
  push_neg at hcon
  obtain ⟨ht0, htpp⟩ := hcon
  have hce := h2 htpp
  exact hnf ⟨by omega, by omega⟩

theorem getZoneLoop_noMatch_last (query : String → ZonesResult) (parts : List String)
    (hwf : ∀ s, (query s).success = true ∧ pageConsistent (query s)) :
    ∀ (fuel n : Nat) (zr : ZonesResult) (trace : List String),
      n + fuel = parts.length → 2 ≤ n →
      pageConsistent zr → ¬pageFits zr →
      trace.getLast? = some (joinDots (parts.drop (parts.length - n))) →
      (getZoneLoop query parts fuel n zr trace).2 =
        Except.error CfError.noMatchingZoneFound →
      (getZoneLoop query parts fuel n zr trace).1.getLast? = some (joinDots parts) := by
  intro fuel
  induction fuel with
  | zero =>
    intro n zr trace hn h2n hpc hnf htl hres
    simp only [getZoneLoop]
    have hd : parts.length - n = 0 := by omega
    rw [hd, List.drop_zero] at htl
    exact htl
  | succ fuel ih =>
    intro n zr trace hn h2n hpc hnf htl hres
    simp only [getZoneLoop] at hres ⊢
    have hwiden := pageConsistent_widen zr hpc hnf
    have hnlt : n < parts.length := by omega
    rw [if_pos ⟨hwiden, hnlt⟩] at hres ⊢
    have hok : getLastItemsFromSlice parts (n + 1) =
        Except.ok (parts.drop (parts.length - (n + 1))) := by
      unfold getLastItemsFromSlice
      rw [if_neg (by omega), if_neg (by omega)]
    rw [hok] at hres ⊢
    dsimp only at hres ⊢
    have hsucc := (hwf (joinDots (parts.drop (parts.length - (n + 1))))).1
    rw [if_neg (by simp [hsucc])] at hres ⊢
    by_cases hfits2 : 0 < (query (joinDots (parts.drop
          (parts.length - (n + 1))))).resultInfo.count ∧
        (query (joinDots (parts.drop (parts.length - (n + 1))))).resultInfo.count ≤
          (query (joinDots (parts.drop (parts.length - (n + 1))))).resultInfo.perPage
    · rw [if_pos hfits2] at hres
      exact absurd hres (getMatchingZoneFromZones_ne_noMatch _ _)
    · rw [if_neg hfits2] at hres ⊢
      exact ih (n + 1) _ (trace ++ [joinDots (parts.drop (parts.length - (n + 1)))])
        (by omega) (by omega) (hwf _).2 hfits2 (List.getLast?_concat _) hres

/-- Claim C4: under first-page-consistent, successful responses the
resolver widens exactly as specified: fewer than 2 labels is invalid input
answered without any query; a final no-match error is raised only with the
candidate already covering all labels of the dns name (the full name being
the last query issued); and an overflowing result set for the 2-label
candidate (count over perPage) leads to the 3-label candidate being
queried. -/
theorem spec_C4 (query : String → ZonesResult) (dnsName : String)
    (hwf : ∀ s, (query s).success = true ∧ pageConsistent (query s)) :
    ((goSplit '.' dnsName).length < 2 →
      GetZoneByDNSName query dnsName = ([], Except.error CfError.dnsNameTooFewParts)) ∧
    ((GetZoneByDNSName query dnsName).2 = Except.error CfError.noMatchingZoneFound →
      (GetZoneByDNSName query dnsName).1.getLast? =
        some (joinDots (goSplit '.' dnsName))) ∧
    (3 ≤ (goSplit '.' dnsName).length →
      (query (joinDots ((goSplit '.' dnsName).drop
          ((goSplit '.' dnsName).length - 2)))).resultInfo.perPage <
        (query (joinDots ((goSplit '.' dnsName).drop
          ((goSplit '.' dnsName).length - 2)))).resultInfo.count →
      joinDots ((goSplit '.' dnsName).drop ((goSplit '.' dnsName).length - 3)) ∈
        (GetZoneByDNSName query dnsName).1) := by
  refine ⟨?_, ?_, ?_⟩
  · intro hlen
    simp [GetZoneByDNSName, hlen]
  · intro hres
    unfold GetZoneByDNSName at hres ⊢
    by_cases hlen : (goSplit '.' dnsName).length < 2
    · rw [if_pos hlen] at hres
      simp at hres
    · rw [if_neg hlen] at hres ⊢
      have hlen2 : 2 ≤ (goSplit '.' dnsName).length := Nat.not_lt.mp hlen
      have hok : getLastItemsFromSlice (goSplit '.' dnsName) 2 =
          Except.ok ((goSplit '.' dnsName).drop ((goSplit '.' dnsName).length - 2)) := by
        unfold getLastItemsFromSlice
        rw [if_neg (by omega), if_neg (by omega)]
      rw [hok] at hres ⊢
      dsimp only at hres ⊢
      have hsucc := (hwf (joinDots ((goSplit '.' dnsName).drop
        ((goSplit '.' dnsName).length - 2)))).1
      rw [if_neg (by simp [hsucc])] at hres ⊢
      by_cases hfits2 : 0 < (query (joinDots ((goSplit '.' dnsName).drop
            ((goSplit '.' dnsName).length - 2)))).resultInfo.count ∧
          (query (joinDots ((goSplit '.' dnsName).drop
            ((goSplit '.' dnsName).length - 2)))).resultInfo.count ≤
            (query (joinDots ((goSplit '.' dnsName).drop
              ((goSplit '.' dnsName).length - 2)))).resultInfo.perPage
      · rw [if_pos hfits2] at hres
        exact absurd hres (getMatchingZoneFromZones_ne_noMatch _ _)
      · rw [if_neg hfits2] at hres ⊢
        exact getZoneLoop_noMatch_last query (goSplit '.' dnsName) hwf _ 2 _ _
          (by omega) (by omega) (hwf _).2 hfits2 (by simp) hres
  · intro h3 hcpp
    unfold GetZoneByDNSName
    rw [if_neg (by omega)]
    have hok : getLastItemsFromSlice (goSplit '.' dnsName) 2 =
        Except.ok ((goSplit '.' dnsName).drop ((goSplit '.' dnsName).length - 2)) := by
      unfold getLastItemsFromSlice
      rw [if_neg (by omega), if_neg (by omega)]
    rw [hok]
    dsimp only
    have hsucc := (hwf (joinDots ((goSplit '.' dnsName).drop
      ((goSplit '.' dnsName).length - 2)))).1
    rw [if_neg (by simp [hsucc])]
    have hfits2 : ¬(0 < (query (joinDots ((goSplit '.' dnsName).drop
          ((goSplit '.' dnsName).length - 2)))).resultInfo.count ∧
        (query (joinDots ((goSplit '.' dnsName).drop
          ((goSplit '.' dnsName).length - 2)))).resultInfo.count ≤
          (query (joinDots ((goSplit '.' dnsName).drop
            ((goSplit '.' dnsName).length - 2)))).resultInfo.perPage) := by
      rintro ⟨-, hle⟩
      omega
    rw [if_neg hfits2]
    obtain ⟨fuel, hfuel⟩ : ∃ k, (goSplit '.' dnsName).length - 2 = k + 1 :=
      ⟨(goSplit '.' dnsName).length - 3, by omega⟩
    rw [hfuel] at hcpp ⊢
    simp only [getZoneLoop]
    have hwiden : (query (joinDots ((goSplit '.' dnsName).drop
          (fuel + 1)))).resultInfo.totalCount = 0 ∨
        (query (joinDots ((goSplit '.' dnsName).drop
          (fuel + 1)))).resultInfo.perPage <
          (query (joinDots ((goSplit '.' dnsName).drop
            (fuel + 1)))).resultInfo.totalCount := by
      right
      obtain ⟨-, hct, -⟩ := (hwf (joinDots ((goSplit '.' dnsName).drop (fuel + 1)))).2
      omega
    rw [if_pos ⟨hwiden, by omega⟩]
    have hok3 : getLastItemsFromSlice (goSplit '.' dnsName) (2 + 1) =
        Except.ok ((goSplit '.' dnsName).drop ((goSplit '.' dnsName).length - 3)) := by
      unfold getLastItemsFromSlice
      rw [if_neg (by omega), if_neg (by omega)]
    rw [hok3]
    dsimp only
    have hsucc3 := (hwf (joinDots ((goSplit '.' dnsName).drop
      ((goSplit '.' dnsName).length - 3)))).1
    rw [if_neg (by simp [hsucc3])]
    by_cases hf3 : 0 < (query (joinDots ((goSplit '.' dnsName).drop
          ((goSplit '.' dnsName).length - 3)))).resultInfo.count ∧
        (query (joinDots ((goSplit '.' dnsName).drop
          ((goSplit '.' dnsName).length - 3)))).resultInfo.count ≤
          (query (joinDots ((goSplit '.' dnsName).drop
            ((goSplit '.' dnsName).length - 3)))).resultInfo.perPage
    · rw [if_pos hf3]
      simp
    · rw [if_neg hf3]
      obtain ⟨suffix, hsfx⟩ := getZoneLoop_trace_mono query (goSplit '.' dnsName) fuel
        (2 + 1) (query (joinDots ((goSplit '.' dnsName).drop
          ((goSplit '.' dnsName).length - 3))))
        ([joinDots ((goSplit '.' dnsName).drop (fuel + 1))] ++
          [joinDots ((goSplit '.' dnsName).drop ((goSplit '.' dnsName).length - 3))])
      rw [hsfx]
      simp

/-- Witness for C4: an overflowing 2-label response (count 2 over perPage
1) for b.c makes the resolver query the 3-label candidate a.b.c. -/
theorem spec_C4_witness :
    joinDots ((goSplit '.' "a.b.c").drop ((goSplit '.' "a.b.c").length - 3)) ∈
      (GetZoneByDNSName wQueryC4 "a.b.c").1 := by
  have hwf4 : ∀ s, (wQueryC4 s).success = true ∧ pageConsistent (wQueryC4 s) := by
    intro s
    by_cases h : s = "b.c"
    · rw [h]
      refine ⟨rfl, ?_⟩
      unfold pageConsistent
      decide
    · have hq : wQueryC4 s = ⟨true, [wZoneC4], ⟨1, 1, 1, 1⟩⟩ := by
        simp [wQueryC4, h]
      rw [hq]
      refine ⟨rfl, ?_⟩
      unfold pageConsistent
      decide
  exact (spec_C4 wQueryC4 "a.b.c" hwf4).2.2 (by decide) (by decide)
